import Mathlib

/-!
Shallow embedding of the yosip-api e-commerce backend (Express + Mongoose,
single `server.js` plus models and middleware) and proofs about its cart,
order and payment-reconciliation logic.

Modelling conventions:
- Mongo documents become Lean structures; a collection is a `List` of them.
- `findOne`/`findById` become `List.find?` on the corresponding key.
- `doc.save()` after a `findOne(filter)` writes back by `_id`, i.e. it
  replaces the first element matching the same filter (ids are unique in
  Mongo); a save of a freshly constructed document appends it.
- Money amounts are `ℚ`, quantities and stock are `Int` (a Mongo `$inc` by a
  negative amount can drive stock negative, so stock is not `Nat`).
- Each HTTP handler is a pure function `request → AppState → AppState × result`.
-/

namespace Yosip

/-- A product document (models/Product.js): price, stock, active flag. -/
structure Product where
  pid : Nat
  name : String
  price : ℚ
  stock : Int
  isActive : Bool
deriving DecidableEq

/-- A cart line item (models/Cart.js `items` entry). -/
structure CartItem where
  productId : Nat
  quantity : Int
deriving DecidableEq

/-- A cart document (models/Cart.js): keyed by `userId` or `sessionId`. -/
structure Cart where
  userId : Option Nat
  sessionId : Option String
  items : List CartItem
deriving DecidableEq

/-- A snapshotted order line (server.js `orderItems` entries). -/
structure OrderItem where
  productId : Nat
  productName : String
  quantity : Int
  price : ℚ
  subtotal : ℚ
deriving DecidableEq

/-- An order document as the endpoints construct it. -/
structure Order where
  orderId : Nat
  customerId : Option Nat
  items : List OrderItem
  totalAmount : ℚ
  shippingFee : ℚ
  tax : ℚ
  status : String
  paymentStatus : String
  stripePaymentIntentId : Option String := none
  paypalCaptureId : Option String := none
deriving DecidableEq

/-- The persistent state the handlers read and write. -/
structure AppState where
  products : List Product
  carts : List Cart
  orders : List Order
deriving DecidableEq

/-- `Product.findById`: first product with the given id. -/
def findProduct (ps : List Product) (pid : Nat) : Option Product :=
  ps.find? (fun p => p.pid == pid)

/-- `product.save()`: replace the first product with the same id. -/
def saveProduct : List Product → Product → List Product
  | [], _ => []
  | p :: rest, p' => if p.pid == p'.pid then p' :: rest else p :: saveProduct rest p'

/-- The cart filter `userId ? { userId } : { sessionId }` used by the cart
routes behind `ensureGuestSession`, where `req.sessionId` is always a string. -/
def identityFilter (bodyUserId : Option Nat) (reqSessionId : String) (c : Cart) : Bool :=
  match bodyUserId with
  | some u => c.userId == some u
  | none => c.sessionId == some reqSessionId

/-- The cart filter with an optional session id (used by DELETE /cart/remove,
which reads `req.sessionID` and has no middleware filling it). -/
def cartFilterO (userId : Option Nat) (sessionId : Option String) (c : Cart) : Bool :=
  match userId with
  | some u => c.userId == some u
  | none => c.sessionId == sessionId

/-- `cart.save()` semantics for a cart obtained via `findOne(f)` (replace the
first match) or freshly created (no match: append). -/
def replaceFirstCart (f : Cart → Bool) (c' : Cart) : List Cart → List Cart
  | [] => [c']
  | c :: rest => if f c then c' :: rest else c :: replaceFirstCart f c' rest

/-- `Cart.deleteOne(f)`: drop the first matching cart. -/
def deleteFirstCart (f : Cart → Bool) : List Cart → List Cart
  | [] => []
  | c :: rest => if f c then rest else c :: deleteFirstCart f rest

/-- `Cart.findOneAndUpdate(f, g)`: update the first matching cart, no-op when
none matches. -/
def updateFirstCart (f : Cart → Bool) (g : Cart → Cart) : List Cart → List Cart
  | [] => []
  | c :: rest => if f c then g c :: rest else c :: updateFirstCart f g rest

/-- `items.findIndex(item => item.productId === productId)` followed by a read
of that line's quantity: quantity of the first line for the product. -/
def lookupQty : List CartItem → Nat → Option Int
  | [], _ => none
  | it :: rest, pid => if it.productId == pid then some it.quantity else lookupQty rest pid

/-- `cart.items[existingItemIndex].quantity = newQuantity`: overwrite the first
line for the product. -/
def setQtyFirst : List CartItem → Nat → Int → List CartItem
  | [], _, _ => []
  | it :: rest, pid, q =>
    if it.productId == pid then { it with quantity := q } :: rest
    else it :: setQtyFirst rest pid q

/-- `cart.items.splice(itemIndex, 1)`: remove the first line for the product. -/
def removeFirst : List CartItem → Nat → List CartItem
  | [], _ => []
  | it :: rest, pid => if it.productId == pid then rest else it :: removeFirst rest pid

/-- Number of lines a cart holds for one product. -/
def countLines (items : List CartItem) (pid : Nat) : Nat :=
  (items.filter (fun it => it.productId == pid)).length

/-- Total quantity a list of lines holds for one product. -/
def qtySum (items : List CartItem) (pid : Nat) : Int :=
  ((items.filter (fun it => it.productId == pid)).map CartItem.quantity).sum

/-- Result of a cart handler: the JSON envelope reduced to status and payload. -/
inductive CartResult
  | ok (message : String) (cart : Cart)
  | err (status : Nat) (message : String)
deriving DecidableEq

/-- POST /cart/add (server.js lines 1290-1423), the body that runs under the
per-identity lock: validate, check stock against the combined quantity, upsert
the line, save. `reqSessionId` is the string `ensureGuestSession` guarantees. -/
def addToCart (bodyUserId : Option Nat) (reqSessionId : String)
    (productId : Option Nat) (quantity : Int) (st : AppState) :
    AppState × CartResult :=
  match productId with
  | none => (st, .err 400 "productId is required")
  | some pid =>
    match findProduct st.products pid with
    | none => (st, .err 404 "Product not found")
    | some product =>
      if !product.isActive then (st, .err 400 "Product is not available")
      else if product.stock < quantity then
        (st, .err 400 "Only N items available in stock")
      else
        let flt := identityFilter bodyUserId reqSessionId
        let cart : Cart :=
          match st.carts.find? flt with
          | some c => c
          | none =>
            { userId := bodyUserId,
              sessionId := if bodyUserId.isSome then none else some reqSessionId,
              items := [] }
        match lookupQty cart.items pid with
        | some q0 =>
          let newQuantity := q0 + quantity
          if product.stock < newQuantity then
            (st, .err 400 "Only N items available in stock")
          else
            let cart' := { cart with items := setQtyFirst cart.items pid newQuantity }
            ({ st with carts := replaceFirstCart flt cart' st.carts },
             .ok "Cart quantity updated" cart')
        | none =>
          let cart' := { cart with items := cart.items ++ [⟨pid, quantity⟩] }
          ({ st with carts := replaceFirstCart flt cart' st.carts },
           .ok "Item added to cart" cart')

/-- The identity filter ignores a cart's items. -/
theorem identityFilter_set_items (u : Option Nat) (s : String) (c : Cart)
    (its : List CartItem) :
    identityFilter u s { c with items := its } = identityFilter u s c := by
  cases u <;> rfl

/-- Replacing the first match of `f` by a cart that still satisfies `f` makes
that cart the first match. -/
theorem find?_replaceFirstCart (f : Cart → Bool) (c' : Cart) (cs : List Cart)
    (c : Cart) (hfind : cs.find? f = some c) (hc' : f c' = true) :
    (replaceFirstCart f c' cs).find? f = some c' := by
  induction cs with
  | nil => simp at hfind
  | cons hd tl ih =>
    by_cases h : f hd
    · simp [replaceFirstCart, h, List.find?_cons, hc']
    · simp only [List.find?_cons, h] at hfind
      simp only [replaceFirstCart, h, if_neg]
      simp only [Bool.false_eq_true, ite_false]
      simp [List.find?_cons, h, ih hfind]

/-- Overwriting a line's quantity does not change which products have lines. -/
theorem countLines_setQtyFirst (items : List CartItem) (pid : Nat) (v : Int)
    (x : Nat) : countLines (setQtyFirst items pid v) x = countLines items x := by
  induction items with
  | nil => rfl
  | cons it rest ih =>
    by_cases h : it.productId == pid
    · simp only [setQtyFirst, h, ite_true, countLines]
      have : ({ it with quantity := v } : CartItem).productId = it.productId := rfl
      by_cases hx : it.productId == x <;> simp [List.filter_cons, this, hx]
    · simp only [setQtyFirst, h, Bool.false_eq_true, ite_false, countLines] at *
      by_cases hx : it.productId == x <;> simp [List.filter_cons, hx, ih]

/-- A product absent from the line ids has no lines. -/
theorem countLines_eq_zero_of_not_mem (items : List CartItem) (pid : Nat)
    (h : pid ∉ items.map CartItem.productId) : countLines items pid = 0 := by
  induction items with
  | nil => rfl
  | cons it rest ih =>
    simp only [List.map_cons, List.mem_cons, not_or] at h
    have hne : (it.productId == pid) = false := by
      simp [beq_iff_eq]
      exact fun he => h.1 he.symm
    simp only [countLines, List.filter_cons, hne]
    exact ih h.2

/-- With no duplicate product references, a product that has a line has
exactly one. -/
theorem countLines_eq_one (items : List CartItem) (pid : Nat) (p : Int)
    (hnodup : (items.map CartItem.productId).Nodup)
    (hq : lookupQty items pid = some p) : countLines items pid = 1 := by
  induction items with
  | nil => simp [lookupQty] at hq
  | cons it rest ih =>
    simp only [List.map_cons, List.nodup_cons] at hnodup
    by_cases h : it.productId == pid
    · simp only [countLines, List.filter_cons, h, List.length_cons]
      have hpid : it.productId = pid := by simpa [beq_iff_eq] using h
      have : countLines rest pid = 0 := by
        apply countLines_eq_zero_of_not_mem
        rw [← hpid]; exact hnodup.1
      simpa [countLines] using this
    · simp only [lookupQty, h, Bool.false_eq_true, ite_false] at hq
      simp only [countLines, List.filter_cons, h]
      exact ih hnodup.2 hq

/-- Overwriting the first line for a present product stores the new value. -/
theorem lookupQty_setQtyFirst (items : List CartItem) (pid : Nat) (v : Int) :
    (lookupQty items pid).isSome = true →
    lookupQty (setQtyFirst items pid v) pid = some v := by
  induction items with
  | nil => simp [lookupQty]
  | cons it rest ih =>
    by_cases h : it.productId == pid
    · intro _
      simp [setQtyFirst, h, lookupQty]
    · simp only [lookupQty, setQtyFirst, h, Bool.false_eq_true, ite_false]
      exact ih

/-- C5: for a cart already holding quantity p of an active product with stock
s, adding quantity q succeeds (the line becomes the single line for the
product, with quantity p + q, and is persisted) if and only if p + q ≤ s;
otherwise the handler returns a 400 error and the state is unchanged. -/
theorem cart_add_stock_iff
    (uid : Option Nat) (reqSid : String) (pid : Nat) (q : Int) (st : AppState)
    (product : Product) (cart : Cart) (p : Int)
    (hprod : findProduct st.products pid = some product)
    (hact : product.isActive = true)
    (hcart : st.carts.find? (identityFilter uid reqSid) = some cart)
    (hq0 : lookupQty cart.items pid = some p)
    (hp : 0 ≤ p)
    (hnodup : (cart.items.map CartItem.productId).Nodup) :
    ((addToCart uid reqSid (some pid) q st).2 =
        CartResult.ok "Cart quantity updated"
          { cart with items := setQtyFirst cart.items pid (p + q) }
      ↔ p + q ≤ product.stock) ∧
    (p + q ≤ product.stock →
      (addToCart uid reqSid (some pid) q st).1.carts.find? (identityFilter uid reqSid) =
        some { cart with items := setQtyFirst cart.items pid (p + q) } ∧
      lookupQty (setQtyFirst cart.items pid (p + q)) pid = some (p + q) ∧
      countLines (setQtyFirst cart.items pid (p + q)) pid = 1) ∧
    (product.stock < p + q →
      addToCart uid reqSid (some pid) q st =
        (st, CartResult.err 400 "Only N items available in stock")) := by
  have hrun : addToCart uid reqSid (some pid) q st =
      (if product.stock < q then
        (st, CartResult.err 400 "Only N items available in stock")
      else if product.stock < p + q then
        (st, CartResult.err 400 "Only N items available in stock")
      else
        ({ st with
            carts := replaceFirstCart (identityFilter uid reqSid)
              ({ cart with items := setQtyFirst cart.items pid (p + q) }) st.carts },
         CartResult.ok "Cart quantity updated"
           { cart with items := setQtyFirst cart.items pid (p + q) })) := by
    unfold addToCart
    simp only [hprod, hact, Bool.not_true, Bool.false_eq_true, ite_false, hcart, hq0]
  by_cases h1 : product.stock < q
  · have hfail : product.stock < p + q := by linarith
    have hne : ¬ p + q ≤ product.stock := by linarith
    refine ⟨?_, fun hc => absurd hc hne, fun _ => by rw [hrun]; simp [h1]⟩
    rw [hrun]
    simp [h1, hne]
  · push_neg at h1
    by_cases h2 : product.stock < p + q
    · have hne : ¬ p + q ≤ product.stock := by linarith
      refine ⟨?_, fun hc => absurd hc hne, fun _ => by rw [hrun]; simp [h2, not_lt.mpr h1]⟩
      rw [hrun]
      simp [h2, not_lt.mpr h1, hne]
    · push_neg at h2
      have hnl1 : ¬ product.stock < q := not_lt.mpr h1
      have hnl2 : ¬ product.stock < p + q := not_lt.mpr h2
      constructor
      · rw [hrun]; simp [hnl1, hnl2, h2]
      constructor
      · intro _
        refine ⟨?_, ?_, ?_⟩
        · rw [hrun]
          simp only [hnl1, hnl2, ite_false]
          apply find?_replaceFirstCart _ _ _ cart hcart
          rw [identityFilter_set_items]
          exact List.find?_some hcart
        · exact lookupQty_setQtyFirst cart.items pid (p + q) (by simp [hq0])
        · rw [countLines_setQtyFirst]
          exact countLines_eq_one cart.items pid p hnodup hq0
      · intro hc; exact absurd hc (not_lt.mpr h2)

/-- Witness for `cart_add_stock_iff` at a concrete state: product 1 has stock
5, the guest cart holds 2 of it, and 2 more are added. -/
theorem cart_add_stock_iff_witness :
    ((addToCart none "s" (some 1) 2
        ⟨[⟨1, "Widget", 10, 5, true⟩], [⟨none, some "s", [⟨1, 2⟩]⟩], []⟩).2 =
      CartResult.ok "Cart quantity updated"
        { userId := none, sessionId := some "s",
          items := setQtyFirst [⟨1, 2⟩] 1 (2 + 2) } ↔ (2 : Int) + 2 ≤ 5) ∧
    ((2 : Int) + 2 ≤ 5 →
      (addToCart none "s" (some 1) 2
          ⟨[⟨1, "Widget", 10, 5, true⟩], [⟨none, some "s", [⟨1, 2⟩]⟩], []⟩).1.carts.find?
          (identityFilter none "s") =
        some { userId := none, sessionId := some "s",
               items := setQtyFirst [⟨1, 2⟩] 1 (2 + 2) } ∧
      lookupQty (setQtyFirst [⟨1, 2⟩] 1 (2 + 2)) 1 = some (2 + 2) ∧
      countLines (setQtyFirst [⟨1, 2⟩] 1 (2 + 2)) 1 = 1) ∧
    ((5 : Int) < 2 + 2 →
      addToCart none "s" (some 1) 2
          ⟨[⟨1, "Widget", 10, 5, true⟩], [⟨none, some "s", [⟨1, 2⟩]⟩], []⟩ =
        (⟨[⟨1, "Widget", 10, 5, true⟩], [⟨none, some "s", [⟨1, 2⟩]⟩], []⟩,
         CartResult.err 400 "Only N items available in stock")) := by
  exact cart_add_stock_iff none "s" 1 2
    ⟨[⟨1, "Widget", 10, 5, true⟩], [⟨none, some "s", [⟨1, 2⟩]⟩], []⟩
    ⟨1, "Widget", 10, 5, true⟩ ⟨none, some "s", [⟨1, 2⟩]⟩ 2
    (by decide) (by decide) (by decide) (by decide) (by decide) (by decide)

/-- PUT /cart/update (server.js lines 1426-1548): presence validation, reject
negative or non-integer quantities, remove the line on quantity zero,
otherwise re-validate against stock and overwrite the line's quantity. -/
def updateCart (bodyUserId : Option Nat) (reqSessionId : String)
    (productId : Option Nat) (quantity : Option ℚ) (st : AppState) :
    AppState × CartResult :=
  match productId, quantity with
  | none, _ => (st, .err 400 "productId and quantity are required")
  | some _, none => (st, .err 400 "productId and quantity are required")
  | some pid, some q =>
    if q < 0 ∨ ¬ q.isInt then
      (st, .err 400 "Quantity must be a non-negative integer")
    else
      match st.carts.find? (identityFilter bodyUserId reqSessionId) with
      | none => (st, .err 404 "Cart not found")
      | some cart =>
        match lookupQty cart.items pid with
        | none => (st, .err 404 "Item not found in cart")
        | some _ =>
          if q = 0 then
            let cart' := { cart with items := removeFirst cart.items pid }
            ({ st with
                carts := replaceFirstCart (identityFilter bodyUserId reqSessionId)
                  cart' st.carts },
             .ok "Item removed from cart" cart')
          else
            match findProduct st.products pid with
            | none => (st, .err 404 "Product not found")
            | some product =>
              if (product.stock : ℚ) < q then
                (st, .err 400 "Only N items available in stock")
              else
                let cart' := { cart with items := setQtyFirst cart.items pid q.num }
                ({ st with
                    carts := replaceFirstCart (identityFilter bodyUserId reqSessionId)
                      cart' st.carts },
                 .ok "Cart updated" cart')

/-- A product with no line id occurrence has no lookup result. -/
theorem lookupQty_eq_none_of_not_mem (items : List CartItem) (pid : Nat)
    (h : pid ∉ items.map CartItem.productId) : lookupQty items pid = none := by
  induction items with
  | nil => rfl
  | cons it rest ih =>
    simp only [List.map_cons, List.mem_cons, not_or] at h
    have hne : (it.productId == pid) = false := by
      simp [beq_iff_eq]
      exact fun he => h.1 he.symm
    simp only [lookupQty, hne, Bool.false_eq_true, ite_false]
    exact ih h.2

/-- With no duplicate product references, removing the product's line leaves
no line for it. -/
theorem lookupQty_removeFirst (items : List CartItem) (pid : Nat)
    (hnodup : (items.map CartItem.productId).Nodup) :
    lookupQty (removeFirst items pid) pid = none := by
  induction items with
  | nil => rfl
  | cons it rest ih =>
    simp only [List.map_cons, List.nodup_cons] at hnodup
    by_cases h : it.productId == pid
    · simp only [removeFirst, h, ite_true]
      apply lookupQty_eq_none_of_not_mem
      have hpid : it.productId = pid := by simpa [beq_iff_eq] using h
      rw [← hpid]; exact hnodup.1
    · simp only [removeFirst, h, Bool.false_eq_true, ite_false, lookupQty]
      exact ih hnodup.2

/-- C7: for an update request on a present line: quantity exactly zero removes
the line item, a negative or non-integer quantity is rejected with a
validation error and the state is unchanged, and any other quantity is
re-validated against current stock and overwrites the line's quantity when it
does not exceed stock (400 error and unchanged state when it does). -/
theorem cart_update_quantity_semantics
    (uid : Option Nat) (reqSid : String) (pid : Nat) (q : ℚ) (st : AppState)
    (cart : Cart) (p : Int)
    (hcart : st.carts.find? (identityFilter uid reqSid) = some cart)
    (hitem : lookupQty cart.items pid = some p)
    (hnodup : (cart.items.map CartItem.productId).Nodup) :
    (q = 0 →
      updateCart uid reqSid (some pid) (some q) st =
        ({ st with
            carts := replaceFirstCart (identityFilter uid reqSid)
              ({ cart with items := removeFirst cart.items pid }) st.carts },
         CartResult.ok "Item removed from cart"
           ({ cart with items := removeFirst cart.items pid })) ∧
      lookupQty (removeFirst cart.items pid) pid = none) ∧
    (q < 0 ∨ ¬ q.isInt →
      updateCart uid reqSid (some pid) (some q) st =
        (st, CartResult.err 400 "Quantity must be a non-negative integer")) ∧
    (∀ product, findProduct st.products pid = some product → 0 < q → q.isInt = true →
      (q ≤ (product.stock : ℚ) →
        updateCart uid reqSid (some pid) (some q) st =
          ({ st with
              carts := replaceFirstCart (identityFilter uid reqSid)
                ({ cart with items := setQtyFirst cart.items pid q.num }) st.carts },
           CartResult.ok "Cart updated"
             ({ cart with items := setQtyFirst cart.items pid q.num }))) ∧
      ((product.stock : ℚ) < q →
        updateCart uid reqSid (some pid) (some q) st =
          (st, CartResult.err 400 "Only N items available in stock"))) := by
  refine ⟨?_, ?_, ?_⟩
  · intro hq
    subst hq
    constructor
    · unfold updateCart
      have hval : ¬ ((0 : ℚ) < 0 ∨ ¬ (0 : ℚ).isInt) := by decide
      simp only [hval, ite_false, hcart, hitem, ite_true, if_true]
    · exact lookupQty_removeFirst cart.items pid hnodup
  · intro hval
    unfold updateCart
    simp only [hval, ite_true, if_true]
  · intro product hprod hpos hint
    have hval : ¬ (q < 0 ∨ ¬ q.isInt) := by
      push_neg
      exact ⟨not_lt.mp (fun h => absurd (lt_trans h hpos) (lt_irrefl q)), hint⟩
    have hq0 : ¬ q = 0 := ne_of_gt hpos
    constructor
    · intro hle
      unfold updateCart
      simp only [hval, ite_false, hcart, hitem, hq0, hprod,
        not_lt.mpr hle, ite_false]
    · intro hgt
      unfold updateCart
      simp only [hval, ite_false, hcart, hitem, hq0, hprod, hgt, ite_true]

/-- Witness for `cart_update_quantity_semantics`: setting the quantity of a
present line to 3 with stock 5 overwrites the line. -/
theorem cart_update_quantity_semantics_witness :
    updateCart none "s" (some 1) (some 3)
      ⟨[⟨1, "Widget", 10, 5, true⟩], [⟨none, some "s", [⟨1, 2⟩]⟩], []⟩ =
      (⟨[⟨1, "Widget", 10, 5, true⟩], [⟨none, some "s", [⟨1, 3⟩]⟩], []⟩,
       CartResult.ok "Cart updated" ⟨none, some "s", [⟨1, 3⟩]⟩) := by
  have h := cart_update_quantity_semantics none "s" 1 3
    ⟨[⟨1, "Widget", 10, 5, true⟩], [⟨none, some "s", [⟨1, 2⟩]⟩], []⟩
    ⟨none, some "s", [⟨1, 2⟩]⟩ 2 (by decide) (by decide) (by decide)
  have h3 := (h.2.2 ⟨1, "Widget", 10, 5, true⟩ (by decide) (by decide) (by decide)).1
    (by decide)
  rw [h3]
  decide

/-- A DELETE /cart/remove request as the handler reads it (server.js lines
1551-1626): the handler derives its identity from `req.session?.userId`,
`req.user?._id` and `req.sessionID`. -/
structure RemoveCartRequest where
  body_productId : Option Nat
  session_userId : Option Nat
  user_id : Option Nat
  sessionID : Option String
  cookies_guestSessionId : Option String
deriving DecidableEq

/-- DELETE /cart/remove (server.js lines 1551-1626): resolve identity from
session/user fields, 400 when absent, otherwise filter the line out of the
cart found by that identity. -/
def removeFromCart (req : RemoveCartRequest) (st : AppState) :
    AppState × CartResult :=
  let userId := req.session_userId <|> req.user_id
  let sessionId := req.sessionID
  if userId.isNone && sessionId.isNone then
    (st, .err 400 "No active session found")
  else
    match req.body_productId with
    | none => (st, .err 400 "productId is required")
    | some pid =>
      match st.carts.find? (cartFilterO userId sessionId) with
      | none => (st, .err 404 "Cart not found")
      | some cart =>
        let cart' :=
          { cart with items := cart.items.filter (fun it => !(it.productId == pid)) }
        ({ st with
            carts := replaceFirstCart (cartFilterO userId sessionId) cart' st.carts },
         .ok "Item removed from cart" cart')

/-- A DELETE /cart/remove request arriving with a guest-session cookie, as the
app's middleware chain delivers it to the handler: the app registers only
cors, express.json, express.urlencoded, cookie-parser and static serving
before the routes, and this route has no route-level middleware. No
express-session middleware exists (nothing populates `req.session` or
`req.sessionID`) and no authentication middleware exists (nothing populates
`req.user`); the guest cookie written by ensureGuestSession is only available
as `req.cookies.guestSessionId`, which this handler never reads. -/
def guestRemoveRequest (guestCookie : String) (pid : Option Nat) :
    RemoveCartRequest :=
  { body_productId := pid, session_userId := none, user_id := none,
    sessionID := none, cookies_guestSessionId := some guestCookie }

/-- C9: every DELETE /cart/remove request carrying only a guest-session cookie
is rejected with 400 "No active session found" and no cart is modified,
because none of the identity fields the handler reads is populated by any
middleware in this application. -/
theorem cart_remove_guest_rejected (cookie : String) (pid : Option Nat)
    (st : AppState) :
    removeFromCart (guestRemoveRequest cookie pid) st =
      (st, CartResult.err 400 "No active session found") := rfl

/-- A requested order line as sent in the request body. -/
structure ReqItem where
  productId : Nat
  quantity : Int
deriving DecidableEq

/-- Errors of the direct order-creation path. -/
inductive OrderErr
  | missingFields
  | notFound (pid : Nat)
  | insufficientStock (name : String)
deriving DecidableEq

/-- The per-item loop of POST /orders (server.js lines 1101-1131): look up the
product, fail on absence or insufficient stock, accumulate the snapshot and
subtotal, and decrement-and-save the product's stock before moving on. On
failure the products mutated so far stay mutated. -/
def ordersLoop : List Product → List ReqItem → List OrderItem → ℚ →
    List Product × Except OrderErr (List OrderItem × ℚ)
  | ps, [], acc, sub => (ps, .ok (acc, sub))
  | ps, it :: rest, acc, sub =>
    match findProduct ps it.productId with
    | none => (ps, .error (.notFound it.productId))
    | some product =>
      if product.stock < it.quantity then
        (ps, .error (.insufficientStock product.name))
      else
        ordersLoop
          (saveProduct ps ({ product with stock := product.stock - it.quantity }))
          rest
          (acc ++ [⟨product.pid, product.name, it.quantity, product.price,
            product.price * (it.quantity : ℚ)⟩])
          (sub + product.price * (it.quantity : ℚ))

/-- The body of POST /orders. -/
structure OrdersReq where
  customerId : Option Nat
  customerInfo : Option String
  items : List ReqItem
  shippingAddress : Option String
  shippingFee : Option ℚ
  tax : Option ℚ
deriving DecidableEq

/-- POST /orders (server.js lines 1085-1186): validate presence, run the
per-item loop, compute totalAmount = subtotal + (shippingFee or 0) + (tax or
0), persist the order in pending/unpaid. -/
def postOrders (req : OrdersReq) (st : AppState) :
    AppState × Except OrderErr Order :=
  if req.customerInfo.isNone || req.items.isEmpty || req.shippingAddress.isNone then
    (st, .error .missingFields)
  else
    match ordersLoop st.products req.items [] 0 with
    | (ps', .error e) => ({ st with products := ps' }, .error e)
    | (ps', .ok (orderItems, subtotal)) =>
      let totalAmount := subtotal + req.shippingFee.getD 0 + req.tax.getD 0
      let order : Order :=
        { orderId := st.orders.length, customerId := req.customerId,
          items := orderItems, totalAmount := totalAmount,
          shippingFee := req.shippingFee.getD 0, tax := req.tax.getD 0,
          status := "pending", paymentStatus := "unpaid" }
      ({ st with products := ps', orders := st.orders ++ [order] }, .ok order)

/-- Errors of the POST /orders/create-payment path. -/
inductive PayErr
  | emptyCart
  | missingFields
  | notFound (pid : Nat)
  | insufficientStock (name : String)
deriving DecidableEq

/-- The body of POST /orders/create-payment: alongside the items it carries
client-computed charge fields, among them `total`. -/
structure PaymentReq where
  items : List ReqItem
  shippingAddress : Option String
  contactEmail : Option String
  paymentMethod : Option String
  shipping : Option ℚ
  tax : Option ℚ
  total : ℚ
deriving DecidableEq

/-- The per-item loop of POST /orders/create-payment (server.js lines
1904-1931): same checks and snapshots as the direct path but without any
stock mutation. -/
def createPaymentLoop : List Product → List ReqItem → List OrderItem → ℚ →
    Except PayErr (List OrderItem × ℚ)
  | _, [], acc, sub => .ok (acc, sub)
  | ps, it :: rest, acc, sub =>
    match findProduct ps it.productId with
    | none => .error (.notFound it.productId)
    | some product =>
      if product.stock < it.quantity then
        .error (.insufficientStock product.name)
      else
        createPaymentLoop ps rest
          (acc ++ [⟨product.pid, product.name, it.quantity, product.price,
            product.price * (it.quantity : ℚ)⟩])
          (sub + product.price * (it.quantity : ℚ))

/-- POST /orders/create-payment up to and including the order's persistence
(server.js lines 1872-1959): validation, snapshot loop, then the order is
saved with `totalAmount: total` taken verbatim from the request body (line
1950); `customerId` is `req.user?._id`, which no middleware in this app
populates, hence none. The processor-session calls that follow only attach
session identifiers to the already-persisted order. -/
def createPayment (req : PaymentReq) (st : AppState) :
    AppState × Except PayErr Order :=
  if req.items.isEmpty then (st, .error .emptyCart)
  else if req.shippingAddress.isNone || req.contactEmail.isNone
      || req.paymentMethod.isNone then
    (st, .error .missingFields)
  else
    match createPaymentLoop st.products req.items [] 0 with
    | .error e => (st, .error e)
    | .ok (orderItems, _calculatedSubtotal) =>
      let order : Order :=
        { orderId := st.orders.length, customerId := none,
          items := orderItems, totalAmount := req.total,
          shippingFee := req.shipping.getD 0, tax := req.tax.getD 0,
          status := "pending", paymentStatus := "unpaid" }
      ({ st with orders := st.orders ++ [order] }, .ok order)

/-- Sum of the stored line subtotals of an order. -/
def sumSubtotals (items : List OrderItem) : ℚ :=
  (items.map OrderItem.subtotal).sum

/-- Bool view of an `Except` outcome. -/
def exceptOk {ε α : Type _} : Except ε α → Bool
  | .ok _ => true
  | .error _ => false

instance {ε α : Type _} [DecidableEq ε] [DecidableEq α] :
    DecidableEq (Except ε α) := fun a b =>
  match a, b with
  | .error x, .error y =>
    decidable_of_iff (x = y) ⟨congrArg Except.error, fun h => by injection h⟩
  | .error _, .ok _ => isFalse (fun h => by injection h)
  | .ok _, .error _ => isFalse (fun h => by injection h)
  | .ok x, .ok y =>
    decidable_of_iff (x = y) ⟨congrArg Except.ok, fun h => by injection h⟩

/-- Through the direct-order loop the running subtotal tracks the sum of the
accumulated snapshot subtotals, and every produced snapshot's subtotal is its
unit price times its quantity. -/
theorem ordersLoop_ok_subtotal (l : List ReqItem) :
    ∀ ps acc sub ps' acc' sub',
      ordersLoop ps l acc sub = (ps', Except.ok (acc', sub')) →
      (sub' - sumSubtotals acc' = sub - sumSubtotals acc ∧
       ∀ oi ∈ acc', oi ∈ acc ∨ oi.subtotal = oi.price * (oi.quantity : ℚ)) := by
  induction l with
  | nil =>
    intro ps acc sub ps' acc' sub' h
    unfold ordersLoop at h
    simp only [Prod.mk.injEq, Except.ok.injEq] at h
    obtain ⟨-, h2, h3⟩ := h
    subst h2; subst h3
    exact ⟨rfl, fun oi hoi => Or.inl hoi⟩
  | cons it rest ih =>
    intro ps acc sub ps' acc' sub' h
    unfold ordersLoop at h
    cases hfp : findProduct ps it.productId with
    | none => rw [hfp] at h; simp at h
    | some p =>
      rw [hfp] at h
      dsimp only at h
      by_cases hs : p.stock < it.quantity
      · rw [if_pos hs] at h; simp at h
      · rw [if_neg hs] at h
        obtain ⟨hsum, hmem⟩ := ih _ _ _ _ _ _ h
        have hacc : sumSubtotals
            (acc ++ [⟨p.pid, p.name, it.quantity, p.price,
              p.price * (it.quantity : ℚ)⟩]) =
            sumSubtotals acc + p.price * (it.quantity : ℚ) := by
          simp [sumSubtotals]
        rw [hacc] at hsum
        refine ⟨by linarith, ?_⟩
        intro oi hoi
        rcases hmem oi hoi with hin | hp
        · rcases List.mem_append.mp hin with h1 | h2
          · exact Or.inl h1
          · simp only [List.mem_singleton] at h2
            subst h2
            exact Or.inr rfl
        · exact Or.inr hp

/-- Splitting the direct-order loop over a concatenation of request lists. -/
theorem ordersLoop_append (l₁ : List ReqItem) :
    ∀ ps (l₂ : List ReqItem) acc sub,
      ordersLoop ps (l₁ ++ l₂) acc sub =
        match ordersLoop ps l₁ acc sub with
        | (ps', .ok (acc', sub')) => ordersLoop ps' l₂ acc' sub'
        | (ps', .error e) => (ps', .error e) := by
  induction l₁ with
  | nil => intro ps l₂ acc sub; rfl
  | cons it rest ih =>
    intro ps l₂ acc sub
    cases hfp : findProduct ps it.productId with
    | none => simp only [List.cons_append, ordersLoop, hfp]
    | some p =>
      by_cases hs : p.stock < it.quantity
      · simp only [List.cons_append, ordersLoop, hfp, hs, ite_true]
      · simp only [List.cons_append, ordersLoop, hfp, hs, ite_false]
        exact ih _ _ _ _

/-- The cumulative stock decrements of a request list, in order. -/
def applyDecrements (ps : List Product) (its : List ReqItem) : List Product :=
  its.foldl (fun s it =>
    match findProduct s it.productId with
    | some p => saveProduct s ({ p with stock := p.stock - it.quantity })
    | none => s) ps

/-- When the direct-order loop succeeds, the store it leaves behind is
exactly the original store with each processed item's stock decremented. -/
theorem ordersLoop_ok_products (l : List ReqItem) :
    ∀ ps acc sub, exceptOk (ordersLoop ps l acc sub).2 = true →
      (ordersLoop ps l acc sub).1 = applyDecrements ps l := by
  induction l with
  | nil => intro ps acc sub _; rfl
  | cons it rest ih =>
    intro ps acc sub h
    unfold ordersLoop at h ⊢
    cases hfp : findProduct ps it.productId with
    | none => rw [hfp] at h; simp [exceptOk] at h
    | some p =>
      rw [hfp] at h
      dsimp only at h ⊢
      by_cases hs : p.stock < it.quantity
      · rw [if_pos hs] at h; simp [exceptOk] at h
      · rw [if_neg hs] at h ⊢
        rw [ih _ _ _ h]
        simp [applyDecrements, List.foldl_cons, hfp]

/-- Whether a request item fails the direct-order checks against a store. -/
def failsAt (ps : List Product) (it : ReqItem) : Bool :=
  match findProduct ps it.productId with
  | none => true
  | some p => decide (p.stock < it.quantity)

/-- The error the direct-order loop reports for a failing item. -/
def loopErrAt (ps : List Product) (it : ReqItem) : OrderErr :=
  match findProduct ps it.productId with
  | none => .notFound it.productId
  | some p => .insufficientStock p.name

/-- C4: on the direct order path, when every item before position k passes
the per-item checks and the item at position k fails (product missing or
insufficient stock), the request fails with the corresponding error, no order
is persisted, and the stock decrements of every earlier item are already
persisted — there is no rollback. -/
theorem direct_order_partial_decrement_no_rollback
    (req : OrdersReq) (pre : List ReqItem) (bad : ReqItem) (rest : List ReqItem)
    (st : AppState)
    (hitems : req.items = pre ++ bad :: rest)
    (hinfo : req.customerInfo.isSome = true)
    (haddr : req.shippingAddress.isSome = true)
    (hpre : exceptOk (ordersLoop st.products pre [] 0).2 = true)
    (hbad : failsAt (ordersLoop st.products pre [] 0).1 bad = true) :
    (postOrders req st).2 =
      .error (loopErrAt (ordersLoop st.products pre [] 0).1 bad) ∧
    (postOrders req st).1.orders = st.orders ∧
    (postOrders req st).1.carts = st.carts ∧
    (postOrders req st).1.products = applyDecrements st.products pre := by
  have hvinfo : req.customerInfo.isNone = false := by
    cases hc : req.customerInfo with
    | none => rw [hc] at hinfo; simp at hinfo
    | some v => rfl
  have hvaddr : req.shippingAddress.isNone = false := by
    cases hc : req.shippingAddress with
    | none => rw [hc] at haddr; simp at haddr
    | some v => rfl
  have hvitems : req.items.isEmpty = false := by
    rw [hitems]
    cases pre <;> rfl
  rcases hrun : ordersLoop st.products pre [] 0 with ⟨ps₁, r₁⟩
  rw [hrun] at hpre hbad
  cases r₁ with
  | error e => simp [exceptOk] at hpre
  | ok pr =>
    rcases pr with ⟨acc₁, sub₁⟩
    have hfull : ordersLoop st.products req.items [] 0 =
        ordersLoop ps₁ (bad :: rest) acc₁ sub₁ := by
      rw [hitems, ordersLoop_append, hrun]
    have hfail : ordersLoop ps₁ (bad :: rest) acc₁ sub₁ =
        (ps₁, .error (loopErrAt ps₁ bad)) := by
      unfold ordersLoop
      unfold failsAt at hbad
      unfold loopErrAt
      cases hfp : findProduct ps₁ bad.productId with
      | none => rfl
      | some p =>
        rw [hfp] at hbad
        dsimp only at hbad ⊢
        simp only [decide_eq_true_eq] at hbad
        rw [if_pos hbad]
    have hps₁ : ps₁ = applyDecrements st.products pre := by
      have := ordersLoop_ok_products pre st.products [] 0
        (by rw [hrun]; rfl)
      rw [hrun] at this
      exact this
    unfold postOrders
    rw [hvinfo, hvitems, hvaddr]
    simp only [Bool.false_or, ite_false]
    rw [hfull, hfail]
    exact ⟨rfl, rfl, rfl, hps₁ ▸ rfl⟩

/-- Witness for `direct_order_partial_decrement_no_rollback`: a two-item
order whose first item (2 of product 1, stock 5) passes and whose second
(1 of product 2, stock 0) fails leaves product 1 decremented to 3 and
persists no order. -/
theorem direct_order_partial_decrement_no_rollback_witness :
    (postOrders ⟨none, some "ci", [⟨1, 2⟩, ⟨2, 1⟩], some "sa", some 0, some 0⟩
        ⟨[⟨1, "A", 5, 5, true⟩, ⟨2, "B", 7, 0, true⟩], [], []⟩).2 =
      .error (loopErrAt
        (ordersLoop [⟨1, "A", 5, 5, true⟩, ⟨2, "B", 7, 0, true⟩] [⟨1, 2⟩] [] 0).1
        ⟨2, 1⟩) ∧
    (postOrders ⟨none, some "ci", [⟨1, 2⟩, ⟨2, 1⟩], some "sa", some 0, some 0⟩
        ⟨[⟨1, "A", 5, 5, true⟩, ⟨2, "B", 7, 0, true⟩], [], []⟩).1.orders = [] ∧
    (postOrders ⟨none, some "ci", [⟨1, 2⟩, ⟨2, 1⟩], some "sa", some 0, some 0⟩
        ⟨[⟨1, "A", 5, 5, true⟩, ⟨2, "B", 7, 0, true⟩], [], []⟩).1.carts = [] ∧
    (postOrders ⟨none, some "ci", [⟨1, 2⟩, ⟨2, 1⟩], some "sa", some 0, some 0⟩
        ⟨[⟨1, "A", 5, 5, true⟩, ⟨2, "B", 7, 0, true⟩], [], []⟩).1.products =
      applyDecrements [⟨1, "A", 5, 5, true⟩, ⟨2, "B", 7, 0, true⟩] [⟨1, 2⟩] := by
  exact direct_order_partial_decrement_no_rollback
    ⟨none, some "ci", [⟨1, 2⟩, ⟨2, 1⟩], some "sa", some 0, some 0⟩
    [⟨1, 2⟩] ⟨2, 1⟩ []
    ⟨[⟨1, "A", 5, 5, true⟩, ⟨2, "B", 7, 0, true⟩], [], []⟩
    rfl rfl rfl (by decide) (by decide)

/-- Specialization of `ordersLoop_ok_subtotal` to the handler's initial
accumulators. -/
theorem ordersLoop_ok_from_nil (l : List ReqItem) (ps ps' : List Product)
    (acc' : List OrderItem) (sub' : ℚ)
    (h : ordersLoop ps l [] 0 = (ps', Except.ok (acc', sub'))) :
    sub' = sumSubtotals acc' ∧
    ∀ oi ∈ acc', oi.subtotal = oi.price * (oi.quantity : ℚ) := by
  obtain ⟨hsum, hmem⟩ := ordersLoop_ok_subtotal l ps [] 0 ps' acc' sub' h
  have h0 : sumSubtotals ([] : List OrderItem) = 0 := rfl
  rw [h0] at hsum
  constructor
  · linarith
  · intro oi hoi
    rcases hmem oi hoi with hin | hp
    · simp at hin
    · exact hp

/-- C3 (amended): on the direct POST /orders path the persisted total equals
the sum of the snapshotted line subtotals (catalog unit price at placement
time times quantity) plus shipping plus tax, computed at creation; on the
POST /orders/create-payment path the persisted total is the client-supplied
`total` field stored verbatim, not recomputed from the snapshots. -/
theorem order_total_stored (req : OrdersReq) (preq : PaymentReq)
    (st sp st' sp' : AppState) (o op : Order)
    (h1 : postOrders req st = (st', Except.ok o))
    (h2 : createPayment preq sp = (sp', Except.ok op)) :
    (o.totalAmount = sumSubtotals o.items + req.shippingFee.getD 0 + req.tax.getD 0 ∧
     (∀ oi ∈ o.items, oi.subtotal = oi.price * (oi.quantity : ℚ)) ∧
     st'.orders = st.orders ++ [o]) ∧
    (op.totalAmount = preq.total ∧ sp'.orders = sp.orders ++ [op]) := by
  constructor
  · unfold postOrders at h1
    by_cases hval : (req.customerInfo.isNone || req.items.isEmpty
        || req.shippingAddress.isNone) = true
    · rw [if_pos hval] at h1
      simp only [Prod.mk.injEq] at h1
      exact absurd h1.2 (by simp)
    · rw [if_neg hval] at h1
      rcases hloop : ordersLoop st.products req.items [] 0 with ⟨ps₁, r₁⟩
      rw [hloop] at h1
      cases r₁ with
      | error e => simp at h1
      | ok pr =>
        rcases pr with ⟨acc₁, sub₁⟩
        dsimp only at h1
        simp only [Prod.mk.injEq, Except.ok.injEq] at h1
        obtain ⟨hst, ho⟩ := h1
        obtain ⟨hsub, hall⟩ := ordersLoop_ok_from_nil _ _ _ _ _ hloop
        refine ⟨?_, ?_, ?_⟩
        · rw [← ho]
          show sub₁ + req.shippingFee.getD 0 + req.tax.getD 0 =
            sumSubtotals acc₁ + req.shippingFee.getD 0 + req.tax.getD 0
          rw [hsub]
        · rw [← ho]
          exact hall
        · rw [← hst, ← ho]
  · unfold createPayment at h2
    by_cases hv1 : preq.items.isEmpty = true
    · rw [if_pos hv1] at h2
      simp only [Prod.mk.injEq] at h2
      exact absurd h2.2 (by simp)
    · rw [if_neg hv1] at h2
      by_cases hv2 : (preq.shippingAddress.isNone || preq.contactEmail.isNone
          || preq.paymentMethod.isNone) = true
      · rw [if_pos hv2] at h2
        simp only [Prod.mk.injEq] at h2
        exact absurd h2.2 (by simp)
      · rw [if_neg hv2] at h2
        rcases hloop : createPaymentLoop sp.products preq.items [] 0 with e | pr
        · rw [hloop] at h2; simp at h2
        · rw [hloop] at h2
          rcases pr with ⟨acc₁, sub₁⟩
          dsimp only at h2
          simp only [Prod.mk.injEq, Except.ok.injEq] at h2
          obtain ⟨hst, ho⟩ := h2
          exact ⟨by rw [← ho], by rw [← hst, ← ho]⟩

/-- C3 counterexample: a create-payment request for one unit of a 10-priced
product but with client-supplied total 999 persists an order whose stored
total is 999, while the snapshot sum plus shipping plus tax is 10. -/
theorem create_payment_total_client_supplied_cex :
    ((createPayment ⟨[⟨1, 1⟩], some "addr", some "mail", some "stripe",
        some 0, some 0, 999⟩ ⟨[⟨1, "Widget", 10, 5, true⟩], [], []⟩).2.map
      Order.totalAmount = Except.ok (999 : ℚ)) ∧
    ((createPayment ⟨[⟨1, 1⟩], some "addr", some "mail", some "stripe",
        some 0, some 0, 999⟩ ⟨[⟨1, "Widget", 10, 5, true⟩], [], []⟩).2.map
      (fun o => sumSubtotals o.items + (0 : ℚ) + 0) = Except.ok (10 : ℚ)) ∧
    (999 : ℚ) ≠ 10 := by
  have hrun : createPayment ⟨[⟨1, 1⟩], some "addr", some "mail", some "stripe",
      some 0, some 0, 999⟩ ⟨[⟨1, "Widget", 10, 5, true⟩], [], []⟩ =
      (⟨[⟨1, "Widget", 10, 5, true⟩], [],
        [⟨0, none, [⟨1, "Widget", 1, 10, 10 * ((1 : Int) : ℚ)⟩], 999, 0, 0,
          "pending", "unpaid", none, none⟩]⟩,
       Except.ok ⟨0, none, [⟨1, "Widget", 1, 10, 10 * ((1 : Int) : ℚ)⟩], 999, 0, 0,
         "pending", "unpaid", none, none⟩) := rfl
  refine ⟨?_, ?_, by norm_num⟩
  · rw [hrun]; rfl
  · rw [hrun]
    show Except.ok (sumSubtotals [⟨1, "Widget", 1, 10, 10 * ((1 : Int) : ℚ)⟩]
      + (0 : ℚ) + 0) = Except.ok (10 : ℚ)
    norm_num [sumSubtotals]

/-- Witness for `order_total_stored`: a direct order (2 of a 10-priced
product, shipping 3, tax 1) stores total 24, and a create-payment order
stores the client total 999. -/
theorem order_total_stored_witness :
    ((0 : ℚ) + 10 * ((2 : Int) : ℚ) + 3 + 1 =
      sumSubtotals [⟨1, "W", 2, 10, 10 * ((2 : Int) : ℚ)⟩] + (3 : ℚ) + 1) ∧
    ((999 : ℚ) = (999 : ℚ)) := by
  have h := order_total_stored
    ⟨none, some "ci", [⟨1, 2⟩], some "sa", some 3, some 1⟩
    ⟨[⟨1, 1⟩], some "addr", some "mail", some "stripe", some 0, some 0, 999⟩
    ⟨[⟨1, "W", 10, 5, true⟩], [], []⟩
    ⟨[⟨1, "W", 10, 5, true⟩], [], []⟩
    ⟨[⟨1, "W", 10, 5 - 2, true⟩], [],
      [⟨0, none, [⟨1, "W", 2, 10, 10 * ((2 : Int) : ℚ)⟩],
        0 + 10 * ((2 : Int) : ℚ) + 3 + 1, 3, 1, "pending", "unpaid", none, none⟩]⟩
    ⟨[⟨1, "W", 10, 5, true⟩], [],
      [⟨0, none, [⟨1, "W", 1, 10, 10 * ((1 : Int) : ℚ)⟩], 999, 0, 0,
        "pending", "unpaid", none, none⟩]⟩
    ⟨0, none, [⟨1, "W", 2, 10, 10 * ((2 : Int) : ℚ)⟩],
      0 + 10 * ((2 : Int) : ℚ) + 3 + 1, 3, 1, "pending", "unpaid", none, none⟩
    ⟨0, none, [⟨1, "W", 1, 10, 10 * ((1 : Int) : ℚ)⟩], 999, 0, 0,
      "pending", "unpaid", none, none⟩
    rfl rfl
  exact ⟨h.1.1, rfl⟩

/-- `Order.findById`. -/
def findOrder (os : List Order) (oid : Nat) : Option Order :=
  os.find? (fun o => o.orderId == oid)

/-- `order.save()`: replace the first order with the same id. -/
def saveOrder : List Order → Order → List Order
  | [], _ => []
  | o :: rest, o' => if o.orderId == o'.orderId then o' :: rest else o :: saveOrder rest o'

/-- `Product.findByIdAndUpdate(id, {$inc: {stock: dq}})`: a no-op when the
product is absent; the increment can drive stock negative. -/
def incStock (ps : List Product) (pid : Nat) (dq : Int) : List Product :=
  match findProduct ps pid with
  | none => ps
  | some p => saveProduct ps ({ p with stock := p.stock + dq })

/-- The stock decrement loop both payment reconcilers run over the paid
order's items. -/
def decrementOrderStock (ps : List Product) (items : List OrderItem) :
    List Product :=
  items.foldl (fun s oi => incStock s oi.productId (-oi.quantity)) ps

/-- `Cart.findOneAndUpdate({userId}, {$set: {items: []}})`. -/
def clearCartByUser (cs : List Cart) (uid : Nat) : List Cart :=
  updateFirstCart (fun c => c.userId == some uid)
    (fun c => { c with items := [] }) cs

/-- The webhook's HTTP reply, reduced to status code and the received flag. -/
structure WebhookResp where
  status : Nat
  received : Bool
deriving DecidableEq

/-- POST /payment/stripe-webhook, `checkout.session.completed` branch after
signature verification (server.js lines 2130-2167): look up the order from
the session metadata; when found, set paid/processing, store the
payment-intent id, decrement stock for every order item and clear the
customer's cart (when a customer id exists); respond 200 `{received:true}`
either way. The code has no already-paid guard before these mutations. -/
def stripeCheckoutCompleted (orderId : Nat) (paymentIntent : String)
    (st : AppState) : AppState × WebhookResp :=
  match findOrder st.orders orderId with
  | none => (st, ⟨200, true⟩)
  | some order =>
    let order' :=
      { order with
          paymentStatus := "paid", status := "processing",
          stripePaymentIntentId := some paymentIntent }
    ({ products := decrementOrderStock st.products order.items,
       carts :=
         match order.customerId with
         | some uid => clearCartByUser st.carts uid
         | none => st.carts,
       orders := saveOrder st.orders order' },
     ⟨200, true⟩)

/-- C1: the checkout-completed reconciliation is not idempotent. With order
10 holding one unit of product 1 (stock 5), the first delivery decrements
stock to 4 and marks the order paid/processing, and a second identical
delivery decrements stock again, to 3, because the handler guards only on
the order's existence and never on its already-paid state. -/
theorem stripe_webhook_redelivery_double_decrements :
    ((findProduct ((stripeCheckoutCompleted 10 "pi_1"
        ⟨[⟨1, "Widget", 10, 5, true⟩], [],
         [⟨10, none, [⟨1, "Widget", 1, 10, 10⟩], 10, 0, 0, "pending", "unpaid",
           none, none⟩]⟩).1).products 1).map Product.stock = some 4) ∧
    ((findOrder ((stripeCheckoutCompleted 10 "pi_1"
        ⟨[⟨1, "Widget", 10, 5, true⟩], [],
         [⟨10, none, [⟨1, "Widget", 1, 10, 10⟩], 10, 0, 0, "pending", "unpaid",
           none, none⟩]⟩).1).orders 10).map Order.paymentStatus = some "paid") ∧
    ((findOrder ((stripeCheckoutCompleted 10 "pi_1"
        ⟨[⟨1, "Widget", 10, 5, true⟩], [],
         [⟨10, none, [⟨1, "Widget", 1, 10, 10⟩], 10, 0, 0, "pending", "unpaid",
           none, none⟩]⟩).1).orders 10).map Order.status = some "processing") ∧
    ((findProduct ((stripeCheckoutCompleted 10 "pi_1"
        (stripeCheckoutCompleted 10 "pi_1"
          ⟨[⟨1, "Widget", 10, 5, true⟩], [],
           [⟨10, none, [⟨1, "Widget", 1, 10, 10⟩], 10, 0, 0, "pending", "unpaid",
             none, none⟩]⟩).1).1).products 1).map Product.stock = some 3) := by
  refine ⟨by decide, by decide, by decide, by decide⟩

/-- C10: a verified checkout-completed callback whose correlation metadata
references an order id absent from the ledger responds 200 `{received:true}`
and mutates no order, product stock or cart: the state is returned
unchanged. -/
theorem stripe_webhook_unknown_order_noop (orderId : Nat) (pi : String)
    (st : AppState) (h : findOrder st.orders orderId = none) :
    stripeCheckoutCompleted orderId pi st = (st, ⟨200, true⟩) := by
  unfold stripeCheckoutCompleted
  rw [h]

/-- Witness for `stripe_webhook_unknown_order_noop`: an empty ledger. -/
theorem stripe_webhook_unknown_order_noop_witness :
    stripeCheckoutCompleted 99 "pi" ⟨[⟨1, "Widget", 10, 5, true⟩], [], []⟩ =
      (⟨[⟨1, "Widget", 10, 5, true⟩], [], []⟩, ⟨200, true⟩) :=
  stripe_webhook_unknown_order_noop 99 "pi"
    ⟨[⟨1, "Widget", 10, 5, true⟩], [], []⟩ (by decide)

/-- The browser redirect issued by the wallet-processor return handler. -/
inductive PaypalRedirect
  | orderSuccess (orderId : Nat)
  | checkoutFailed
deriving DecidableEq

/-- GET /payment/paypal-success (server.js lines 2182-2242): capture the
processor order; only a capture status of "COMPLETED" runs the success
transition (paid/processing, capture id stored, stock decremented, customer
cart cleared) and redirects to the success page; any other capture status
redirects to the checkout-failed destination without touching the state. -/
def paypalSuccess (captureStatus : String) (captureId : String) (orderId : Nat)
    (st : AppState) : AppState × PaypalRedirect :=
  if captureStatus = "COMPLETED" then
    match findOrder st.orders orderId with
    | none => (st, .orderSuccess orderId)
    | some order =>
      let order' :=
        { order with
            paymentStatus := "paid", status := "processing",
            paypalCaptureId := some captureId }
      ({ products := decrementOrderStock st.products order.items,
         carts :=
           match order.customerId with
           | some uid => clearCartByUser st.carts uid
           | none => st.carts,
         orders := saveOrder st.orders order' },
       .orderSuccess orderId)
  else (st, .checkoutFailed)

/-- C8: when the wallet-processor capture returns any status other than
"COMPLETED", the order stays unpaid/pending, no product stock is mutated, no
cart is cleared, and the browser is redirected to the failure destination. -/
theorem paypal_noncompleted_no_mutation (status captureId : String)
    (orderId : Nat) (st : AppState) (o : Order)
    (hstatus : status ≠ "COMPLETED")
    (ho : findOrder st.orders orderId = some o)
    (hunpaid : o.paymentStatus = "unpaid") (hpending : o.status = "pending") :
    (paypalSuccess status captureId orderId st).1 = st ∧
    (paypalSuccess status captureId orderId st).2 =
      PaypalRedirect.checkoutFailed ∧
    (findOrder (paypalSuccess status captureId orderId st).1.orders
      orderId).map Order.paymentStatus = some "unpaid" ∧
    (findOrder (paypalSuccess status captureId orderId st).1.orders
      orderId).map Order.status = some "pending" ∧
    (paypalSuccess status captureId orderId st).1.products = st.products ∧
    (paypalSuccess status captureId orderId st).1.carts = st.carts := by
  have hrun : paypalSuccess status captureId orderId st =
      (st, PaypalRedirect.checkoutFailed) := by
    unfold paypalSuccess
    rw [if_neg hstatus]
  rw [hrun]
  exact ⟨rfl, rfl, by simp [ho, hunpaid], by simp [ho, hpending], rfl, rfl⟩

/-- Witness for `paypal_noncompleted_no_mutation`: a "PENDING" capture on a
one-order ledger leaves everything unchanged and redirects to failure. -/
theorem paypal_noncompleted_no_mutation_witness :
    (paypalSuccess "PENDING" "cap" 10
        ⟨[⟨1, "Widget", 10, 5, true⟩], [⟨some 7, none, [⟨1, 2⟩]⟩],
         [⟨10, some 7, [⟨1, "Widget", 1, 10, 10⟩], 10, 0, 0, "pending",
           "unpaid", none, none⟩]⟩).1 =
      ⟨[⟨1, "Widget", 10, 5, true⟩], [⟨some 7, none, [⟨1, 2⟩]⟩],
       [⟨10, some 7, [⟨1, "Widget", 1, 10, 10⟩], 10, 0, 0, "pending",
         "unpaid", none, none⟩]⟩ ∧
    (paypalSuccess "PENDING" "cap" 10
        ⟨[⟨1, "Widget", 10, 5, true⟩], [⟨some 7, none, [⟨1, 2⟩]⟩],
         [⟨10, some 7, [⟨1, "Widget", 1, 10, 10⟩], 10, 0, 0, "pending",
           "unpaid", none, none⟩]⟩).2 = PaypalRedirect.checkoutFailed := by
  have h := paypal_noncompleted_no_mutation "PENDING" "cap" 10
    ⟨[⟨1, "Widget", 10, 5, true⟩], [⟨some 7, none, [⟨1, 2⟩]⟩],
     [⟨10, some 7, [⟨1, "Widget", 1, 10, 10⟩], 10, 0, 0, "pending",
       "unpaid", none, none⟩]⟩
    ⟨10, some 7, [⟨1, "Widget", 1, 10, 10⟩], 10, 0, 0, "pending",
      "unpaid", none, none⟩
    (by decide) (by decide) rfl rfl
  exact ⟨h.1, h.2.1⟩

/-- Result envelope of POST /cart/merge. -/
inductive MergeResult
  | ok (message : String) (cart : Cart)
  | err (status : Nat) (message : String)
deriving DecidableEq

/-- `userCart.items[i].quantity += guestItem.quantity`: add to the first line
for the product. -/
def bumpFirst : List CartItem → Nat → Int → List CartItem
  | [], _, _ => []
  | it :: rest, pid, dq =>
    if it.productId == pid then
      { it with quantity := it.quantity + dq } :: rest
    else it :: bumpFirst rest pid dq

/-- Whether a list of lines carries the product. -/
def hasLine (items : List CartItem) (pid : Nat) : Bool :=
  items.any (fun it => it.productId == pid)

/-- The merge loop of POST /cart/merge (server.js lines 1739-1749): for each
guest line, add its quantity to the user cart's existing line or append it. -/
def mergeItems (userItems guestItems : List CartItem) : List CartItem :=
  guestItems.foldl (fun acc g =>
    if hasLine acc g.productId then bumpFirst acc g.productId g.quantity
    else acc ++ [g]) userItems

/-- The `!guestCart || guestCart.items.length === 0` branch of POST
/cart/merge: return the user cart, creating and saving an empty one when none
exists. -/
def mergeNoItems (userId : Nat) (st : AppState) : AppState × MergeResult :=
  match st.carts.find? (fun c => c.userId == some userId) with
  | none =>
    ({ st with carts := st.carts ++ [⟨some userId, none, []⟩] },
     .ok "No items to merge" ⟨some userId, none, []⟩)
  | some u => (st, .ok "No items to merge" u)

/-- POST /cart/merge (server.js lines 1681-1772): nothing to merge when the
guest cart is absent or empty; re-key the guest cart when no user cart
exists; otherwise fold the guest lines into the user cart, save it, and
delete the guest cart. -/
def mergeCarts (userId : Nat) (sessionId : String) (st : AppState) :
    AppState × MergeResult :=
  match st.carts.find? (fun c => c.sessionId == some sessionId) with
  | none => mergeNoItems userId st
  | some g =>
    if g.items.isEmpty then mergeNoItems userId st
    else
      match st.carts.find? (fun c => c.userId == some userId) with
      | none =>
        let g' := { g with userId := some userId, sessionId := none }
        ({ st with
            carts := replaceFirstCart (fun c => c.sessionId == some sessionId)
              g' st.carts },
         .ok "Cart merged successfully" g')
      | some u =>
        let u' := { u with items := mergeItems u.items g.items }
        ({ st with
            carts := deleteFirstCart (fun c => c.sessionId == some sessionId)
              (replaceFirstCart (fun c => c.userId == some userId) u' st.carts) },
         .ok "Cart merged successfully" u')

/-- Quantity of a product contributed by a cons cell. -/
theorem qtySum_cons (a : CartItem) (l : List CartItem) (x : Nat) :
    qtySum (a :: l) x =
      (if a.productId == x then a.quantity else 0) + qtySum l x := by
  by_cases h : a.productId == x <;> simp [qtySum, List.filter_cons, h]

/-- Appending one line adds its quantity when the product matches. -/
theorem qtySum_append_single (l : List CartItem) (g : CartItem) (x : Nat) :
    qtySum (l ++ [g]) x =
      qtySum l x + (if g.productId == x then g.quantity else 0) := by
  by_cases h : g.productId == x <;>
    simp [qtySum, List.filter_append, List.filter_cons, h]

/-- Bumping the first line for a present product adds the bumped quantity to
the product's total. -/
theorem qtySum_bumpFirst (l : List CartItem) (pid : Nat) (dq : Int) (x : Nat)
    (h : hasLine l pid = true) :
    qtySum (bumpFirst l pid dq) x =
      qtySum l x + (if pid == x then dq else 0) := by
  induction l with
  | nil => simp [hasLine] at h
  | cons a rest ih =>
    by_cases ha : a.productId == pid
    · have hapid : a.productId = pid := by simpa [beq_iff_eq] using ha
      simp only [bumpFirst, ha, ite_true]
      rw [qtySum_cons, qtySum_cons]
      have : ({ a with quantity := a.quantity + dq } : CartItem).productId
          = a.productId := rfl
      rw [this, hapid]
      by_cases hx : pid == x
      · simp [hx]; ring
      · simp [hx]
    · simp only [bumpFirst, ha, Bool.false_eq_true, ite_false]
      have hrest : hasLine rest pid = true := by
        simpa [hasLine, List.any_cons, ha] using h
      rw [qtySum_cons, qtySum_cons, ih hrest]
      ring

/-- One merge step adds the guest line's quantity to the product's total. -/
theorem qtySum_merge_step (acc : List CartItem) (g : CartItem) (x : Nat) :
    qtySum (if hasLine acc g.productId then bumpFirst acc g.productId g.quantity
      else acc ++ [g]) x =
      qtySum acc x + (if g.productId == x then g.quantity else 0) := by
  by_cases h : hasLine acc g.productId
  · rw [if_pos h, qtySum_bumpFirst acc g.productId g.quantity x h]
  · rw [if_neg h, qtySum_append_single]

/-- C6 core: merging sums quantities per product. -/
theorem qtySum_mergeItems (guestItems : List CartItem) :
    ∀ userItems x, qtySum (mergeItems userItems guestItems) x =
      qtySum userItems x + qtySum guestItems x := by
  induction guestItems with
  | nil =>
    intro userItems x
    show qtySum userItems x = qtySum userItems x + qtySum [] x
    simp [qtySum]
  | cons g rest ih =>
    intro userItems x
    show qtySum (mergeItems (if hasLine userItems g.productId then
        bumpFirst userItems g.productId g.quantity else userItems ++ [g]) rest) x = _
    rw [ih, qtySum_merge_step, qtySum_cons]
    ring

/-- Replacing the first `d`-match shifts a count by the difference between
the replaced and replacing carts. -/
theorem countP_replaceFirstCart (d f : Cart → Bool) (c' : Cart) :
    ∀ (cs : List Cart) (x : Cart), cs.find? d = some x →
      (replaceFirstCart d c' cs).countP f + (if f x then 1 else 0) =
        cs.countP f + (if f c' then 1 else 0) := by
  intro cs
  induction cs with
  | nil => intro x hx; simp at hx
  | cons a tl ih =>
    intro x hx
    by_cases hda : d a
    · have hxa : x = a := by
        rw [List.find?_cons_of_pos _ hda] at hx
        exact (Option.some.inj hx).symm
      subst hxa
      simp only [replaceFirstCart, hda, ite_true]
      rw [List.countP_cons, List.countP_cons]
      ring
    · have hx' : tl.find? d = some x := by
        rwa [List.find?_cons_of_neg _ (by simpa using hda)] at hx
      simp only [replaceFirstCart, hda, Bool.false_eq_true, ite_false]
      rw [List.countP_cons, List.countP_cons]
      have := ih x hx'
      omega

/-- Deleting the first `f`-match decrements the `f`-count. -/
theorem countP_deleteFirstCart (f : Cart → Bool) :
    ∀ (cs : List Cart) (x : Cart), cs.find? f = some x →
      (deleteFirstCart f cs).countP f + 1 = cs.countP f := by
  intro cs
  induction cs with
  | nil => intro x hx; simp at hx
  | cons a tl ih =>
    intro x hx
    by_cases hfa : f a
    · simp only [deleteFirstCart, hfa, ite_true]
      rw [List.countP_cons]
      simp [hfa]
    · have hx' : tl.find? f = some x := by
        rwa [List.find?_cons_of_neg _ (by simpa using hfa)] at hx
      simp only [deleteFirstCart, hfa, Bool.false_eq_true, ite_false]
      rw [List.countP_cons, List.countP_cons]
      have := ih x hx'
      omega

/-- A first `f`-match that the deleted cart is not survives deletion of the
first `d`-match. -/
theorem find?_deleteFirstCart (f d : Cart → Bool) :
    ∀ (cs : List Cart) (x : Cart), cs.find? f = some x → d x = false →
      (deleteFirstCart d cs).find? f = some x := by
  intro cs
  induction cs with
  | nil => intro x hx _; simp at hx
  | cons a tl ih =>
    intro x hx hdx
    by_cases hda : d a
    · have hfa : f a = false := by
        by_cases hfa : f a
        · rw [List.find?_cons_of_pos _ hfa] at hx
          have hxa : x = a := (Option.some.inj hx).symm
          rw [hxa] at hdx
          rw [hdx] at hda
          simp at hda
        · simpa using hfa
      simp only [deleteFirstCart, hda, ite_true]
      rwa [List.find?_cons_of_neg _ (by simp [hfa])] at hx
    · simp only [deleteFirstCart, hda, Bool.false_eq_true, ite_false]
      by_cases hfa : f a
      · rw [List.find?_cons_of_pos _ hfa] at hx ⊢
        exact hx
      · rw [List.find?_cons_of_neg _ (by simpa using hfa)] at hx
        rw [List.find?_cons_of_neg _ (by simpa using hfa)]
        exact ih x hx hdx

/-- Replacing the first `d`-match by a cart satisfying `f`, in a list with no
`f`-match, makes that cart the first `f`-match. -/
theorem find?_replaceFirstCart_fresh (d f : Cart → Bool) (c' : Cart) :
    ∀ (cs : List Cart), (∀ c ∈ cs, f c = false) → f c' = true →
      (replaceFirstCart d c' cs).find? f = some c' := by
  intro cs
  induction cs with
  | nil =>
    intro _ hc'
    simp [replaceFirstCart, List.find?_cons_of_pos _ hc']
  | cons a tl ih =>
    intro hall hc'
    by_cases hda : d a
    · simp only [replaceFirstCart, hda, ite_true]
      rw [List.find?_cons_of_pos _ hc']
    · simp only [replaceFirstCart, hda, Bool.false_eq_true, ite_false]
      rw [List.find?_cons_of_neg _ (by simp [hall a (List.mem_cons_self a tl)])]
      exact ih (fun c hc => hall c (List.mem_cons_of_mem a hc)) hc'

/-- A zero `f`-count means no `f`-match. -/
theorem find?_eq_none_of_countP_zero (f : Cart → Bool) (cs : List Cart)
    (h : cs.countP f = 0) : cs.find? f = none := by
  rw [List.find?_eq_none]
  intro c hc
  exact (List.countP_eq_zero.mp h) c hc

/-- C6 counterexample: with a present-but-empty guest cart and a user cart
holding one item, the merge returns the state unchanged — the guest cart is
not deleted, contrary to the claim's "the guest cart is deleted" for every
pair of carts. -/
theorem merge_empty_guest_not_deleted_cex :
    (mergeCarts 7 "s"
        ⟨[], [⟨none, some "s", []⟩, ⟨some 7, none, [⟨1, 1⟩]⟩], []⟩).1.carts.find?
      (fun c => c.sessionId == some "s") = some ⟨none, some "s", []⟩ ∧
    (mergeCarts 7 "s"
        ⟨[], [⟨none, some "s", []⟩, ⟨some 7, none, [⟨1, 1⟩]⟩], []⟩).1 =
      ⟨[], [⟨none, some "s", []⟩, ⟨some 7, none, [⟨1, 1⟩]⟩], []⟩ := by
  refine ⟨by decide, by decide⟩

/-- C6 (amended): cart merge sums quantities per product. When both carts
exist and the guest cart has at least one item, each product's resulting
quantity is the sum of its quantities in the two carts and the guest cart is
deleted; when the user cart is absent and the guest cart has items, the guest
cart is re-keyed to the user identity with contents unchanged; when the guest
cart is absent or empty, the state is unchanged if a user cart exists, and an
empty user cart is created and persisted if not — a present-but-empty guest
cart is left in place. -/
theorem merge_quantities_amended (uid : Nat) (sid : String) (st : AppState) :
    (∀ g u, st.carts.find? (fun c => c.sessionId == some sid) = some g →
      st.carts.find? (fun c => c.userId == some uid) = some u →
      g.items ≠ [] → u.sessionId = none →
      st.carts.countP (fun c => c.sessionId == some sid) = 1 →
      ((mergeCarts uid sid st).1.carts.find? (fun c => c.userId == some uid) =
        some ({ u with items := mergeItems u.items g.items }) ∧
      (∀ pid, qtySum (mergeItems u.items g.items) pid =
        qtySum u.items pid + qtySum g.items pid) ∧
      (mergeCarts uid sid st).1.carts.find?
        (fun c => c.sessionId == some sid) = none ∧
      (mergeCarts uid sid st).2 =
        MergeResult.ok "Cart merged successfully"
          ({ u with items := mergeItems u.items g.items }))) ∧
    (∀ g, st.carts.find? (fun c => c.sessionId == some sid) = some g →
      st.carts.find? (fun c => c.userId == some uid) = none →
      g.items ≠ [] →
      ((mergeCarts uid sid st).1.carts.find? (fun c => c.userId == some uid) =
        some ({ g with userId := some uid, sessionId := none }) ∧
      (mergeCarts uid sid st).2 =
        MergeResult.ok "Cart merged successfully"
          ({ g with userId := some uid, sessionId := none }))) ∧
    (∀ u, st.carts.find? (fun c => c.userId == some uid) = some u →
      (st.carts.find? (fun c => c.sessionId == some sid) = none ∨
       ∃ g, st.carts.find? (fun c => c.sessionId == some sid) = some g ∧
         g.items = []) →
      mergeCarts uid sid st = (st, MergeResult.ok "No items to merge" u)) ∧
    (st.carts.find? (fun c => c.userId == some uid) = none →
      (st.carts.find? (fun c => c.sessionId == some sid) = none ∨
       ∃ g, st.carts.find? (fun c => c.sessionId == some sid) = some g ∧
         g.items = []) →
      mergeCarts uid sid st =
        ({ st with carts := st.carts ++ [⟨some uid, none, []⟩] },
         MergeResult.ok "No items to merge" ⟨some uid, none, []⟩)) := by
  refine ⟨?_, ?_, ?_, ?_⟩
  · intro g u hg hu hne hus hone
    have hemp : g.items.isEmpty = false := by
      cases hi : g.items with
      | nil => exact absurd hi hne
      | cons a l => rfl
    have hrun : mergeCarts uid sid st =
        ({ st with
            carts := deleteFirstCart (fun c => c.sessionId == some sid)
              (replaceFirstCart (fun c => c.userId == some uid)
                ({ u with items := mergeItems u.items g.items }) st.carts) },
         MergeResult.ok "Cart merged successfully"
           ({ u with items := mergeItems u.items g.items })) := by
      unfold mergeCarts
      simp only [hg, hemp, Bool.false_eq_true, ite_false, hu]
    have hsu : (u.sessionId == some sid) = false := by rw [hus]; rfl
    have hfu' : ((fun c => c.userId == some uid)
        ({ u with items := mergeItems u.items g.items } : Cart)) = true := by
      have h3 := List.find?_some hu
      exact h3
    have hrep : (replaceFirstCart (fun c => c.userId == some uid)
        ({ u with items := mergeItems u.items g.items }) st.carts).find?
          (fun c => c.userId == some uid) =
        some ({ u with items := mergeItems u.items g.items }) :=
      find?_replaceFirstCart _ _ _ u hu hfu'
    have hcount : (replaceFirstCart (fun c => c.userId == some uid)
        ({ u with items := mergeItems u.items g.items }) st.carts).countP
          (fun c => c.sessionId == some sid) = 1 := by
      have h2 := countP_replaceFirstCart (fun c => c.userId == some uid)
        (fun c => c.sessionId == some sid)
        ({ u with items := mergeItems u.items g.items }) st.carts u hu
      simp only [hsu, hone] at h2
      simpa using h2
    have hpos : 0 < (replaceFirstCart (fun c => c.userId == some uid)
        ({ u with items := mergeItems u.items g.items }) st.carts).countP
          (fun c => c.sessionId == some sid) := by
      rw [hcount]; exact Nat.one_pos
    have hex : ((replaceFirstCart (fun c => c.userId == some uid)
        ({ u with items := mergeItems u.items g.items }) st.carts).find?
          (fun c => c.sessionId == some sid)).isSome = true :=
      List.find?_isSome.mpr (List.countP_pos_iff.mp hpos)
    obtain ⟨y, hy⟩ := Option.isSome_iff_exists.mp hex
    refine ⟨?_, fun pid => qtySum_mergeItems g.items u.items pid, ?_, ?_⟩
    · rw [hrun]
      exact find?_deleteFirstCart _ _ _ _ hrep hsu
    · rw [hrun]
      dsimp only
      apply find?_eq_none_of_countP_zero
      have h4 := countP_deleteFirstCart (fun c => c.sessionId == some sid) _ y hy
      omega
    · rw [hrun]
  · intro g hg hu hne
    have hemp : g.items.isEmpty = false := by
      cases hi : g.items with
      | nil => exact absurd hi hne
      | cons a l => rfl
    have hrun : mergeCarts uid sid st =
        ({ st with
            carts := replaceFirstCart (fun c => c.sessionId == some sid)
              ({ g with userId := some uid, sessionId := none }) st.carts },
         MergeResult.ok "Cart merged successfully"
           ({ g with userId := some uid, sessionId := none })) := by
      unfold mergeCarts
      simp only [hg, hemp, Bool.false_eq_true, ite_false, hu]
    have hall : ∀ c ∈ st.carts, ((fun c => c.userId == some uid) c) = false := by
      intro c hc
      have := List.find?_eq_none.mp hu c hc
      cases hb : ((fun c => c.userId == some uid) c) with
      | true => exact absurd hb this
      | false => rfl
    refine ⟨?_, ?_⟩
    · rw [hrun]
      exact find?_replaceFirstCart_fresh _ _ _ _ hall (by simp)
    · rw [hrun]
  · intro u hu hcase
    rcases hcase with hnone | ⟨g, hg, hgemp⟩
    · unfold mergeCarts
      simp only [hnone]
      unfold mergeNoItems
      simp only [hu]
    · have hemp : g.items.isEmpty = true := by rw [hgemp]; rfl
      unfold mergeCarts
      simp only [hg, hemp, ite_true]
      unfold mergeNoItems
      simp only [hu]
  · intro hu hcase
    rcases hcase with hnone | ⟨g, hg, hgemp⟩
    · unfold mergeCarts
      simp only [hnone]
      unfold mergeNoItems
      simp only [hu]
    · have hemp : g.items.isEmpty = true := by rw [hgemp]; rfl
      unfold mergeCarts
      simp only [hg, hemp, ite_true]
      unfold mergeNoItems
      simp only [hu]

/-- Witness for `merge_quantities_amended`, on the spec's own example:
merging guest cart (product 1 x2, product 2 x1) into user cart (product 1
x1) yields quantities 3 and 1 and deletes the guest cart. -/
theorem merge_quantities_amended_witness :
    ((mergeCarts 7 "s" ⟨[], [⟨none, some "s", [⟨1, 2⟩, ⟨2, 1⟩]⟩,
        ⟨some 7, none, [⟨1, 1⟩]⟩], []⟩).1.carts.find?
      (fun c => c.userId == some 7) =
      some ⟨some 7, none, mergeItems [⟨1, 1⟩] [⟨1, 2⟩, ⟨2, 1⟩]⟩) ∧
    qtySum (mergeItems [⟨1, 1⟩] [⟨1, 2⟩, ⟨2, 1⟩]) 1 =
      qtySum [⟨1, 1⟩] 1 + qtySum [⟨1, 2⟩, ⟨2, 1⟩] 1 ∧
    qtySum (mergeItems [⟨1, 1⟩] [⟨1, 2⟩, ⟨2, 1⟩]) 2 =
      qtySum [⟨1, 1⟩] 2 + qtySum [⟨1, 2⟩, ⟨2, 1⟩] 2 ∧
    ((mergeCarts 7 "s" ⟨[], [⟨none, some "s", [⟨1, 2⟩, ⟨2, 1⟩]⟩,
        ⟨some 7, none, [⟨1, 1⟩]⟩], []⟩).1.carts.find?
      (fun c => c.sessionId == some "s") = none) := by
  have h := (merge_quantities_amended 7 "s"
    ⟨[], [⟨none, some "s", [⟨1, 2⟩, ⟨2, 1⟩]⟩, ⟨some 7, none, [⟨1, 1⟩]⟩], []⟩).1
    ⟨none, some "s", [⟨1, 2⟩, ⟨2, 1⟩]⟩ ⟨some 7, none, [⟨1, 1⟩]⟩
    (by decide) (by decide) (by decide) rfl (by decide)
  exact ⟨h.1, h.2.1 1, h.2.1 2, h.2.2.1⟩

/-- An atomic scheduler event of the in-memory cart lock (server.js lines
1221-1238 and the /cart/add try/finally, lines 1290-1423). `acquireOk op key`
is the check-and-set at the end of `acquireLock`'s wait loop (atomic: no
await separates the `has` check from the `set`); it takes effect only when
the key is free, since otherwise the loop keeps polling. `timeoutRelease op
key` is a waiter whose `acquireLock` threw "Lock timeout", after which the
handler's `finally` still runs `releaseLock(key)` — deleting whatever entry
is in the map. `finish op key` is a holder leaving the handler, whose
`finally` deletes the key and ends the critical section. -/
inductive LockEvent
  | acquireOk (op : Nat) (key : String)
  | timeoutRelease (op : Nat) (key : String)
  | finish (op : Nat) (key : String)
deriving DecidableEq

/-- Whether the event is a timed-out acquire's finally-release. -/
def LockEvent.isTimeout : LockEvent → Bool
  | .timeoutRelease _ _ => true
  | _ => false

/-- The lock map (`cartLocks` keys) plus the set of operations currently
inside the protected cart read-modify-write, with the key each holds. -/
structure LockState where
  locks : List String
  holders : List (Nat × String)
deriving DecidableEq

/-- One scheduler step. Events whose guard does not hold (an acquire on a
held key, a finish by a non-holder) change nothing, matching the code where
such an operation simply keeps waiting or cannot occur. -/
def lockStep (s : LockState) : LockEvent → LockState
  | .acquireOk op key =>
    if key ∈ s.locks then s
    else ⟨key :: s.locks, (op, key) :: s.holders⟩
  | .timeoutRelease _ key => ⟨s.locks.erase key, s.holders⟩
  | .finish op key =>
    if (op, key) ∈ s.holders then
      ⟨s.locks.erase key, s.holders.erase (op, key)⟩
    else s

/-- Run an interleaving from the empty lock map. -/
def lockRun (tr : List LockEvent) : LockState :=
  tr.foldl lockStep ⟨[], []⟩

/-- Mutual exclusion: no key is held by two in-flight operations. -/
def mutexOK (s : LockState) : Prop := (s.holders.map Prod.snd).Nodup

/-- The inductive invariant: every held key is in the lock map, and keys are
held at most once. -/
def lockInv (s : LockState) : Prop :=
  (∀ x ∈ s.holders, x.2 ∈ s.locks) ∧ (s.holders.map Prod.snd).Nodup

/-- Every non-timeout event preserves the lock invariant. -/
theorem lockInv_step (s : LockState) (e : LockEvent)
    (hinv : lockInv s) (hnt : e.isTimeout = false) : lockInv (lockStep s e) := by
  obtain ⟨hsub, hnd⟩ := hinv
  cases e with
  | acquireOk op key =>
    by_cases hk : key ∈ s.locks
    · simp only [lockStep, hk, ite_true]
      exact ⟨hsub, hnd⟩
    · simp only [lockStep, hk, ite_false]
      constructor
      · intro x hx
        rcases List.mem_cons.mp hx with rfl | hx'
        · exact List.mem_cons_self _ _
        · exact List.mem_cons_of_mem _ (hsub x hx')
      · simp only [List.map_cons]
        refine List.nodup_cons.mpr ⟨?_, hnd⟩
        intro hmem
        rcases List.mem_map.mp hmem with ⟨x, hx, hxk⟩
        exact hk (hxk ▸ hsub x hx)
  | timeoutRelease op key => simp [LockEvent.isTimeout] at hnt
  | finish op key =>
    by_cases hmem : (op, key) ∈ s.holders
    · simp only [lockStep, hmem, ite_true]
      have hndh : s.holders.Nodup := List.Nodup.of_map _ hnd
      constructor
      · intro x hx
        have hx' : x ≠ (op, key) ∧ x ∈ s.holders :=
          (List.Nodup.mem_erase_iff hndh).mp hx
        have hxk : x.2 ≠ key := by
          intro hk2
          exact hx'.1 (List.inj_on_of_nodup_map hnd hx'.2 hmem (by rw [hk2]))
        exact (List.mem_erase_of_ne hxk).mpr (hsub x hx'.2)
      · exact List.Nodup.sublist
          (List.Sublist.map Prod.snd (List.erase_sublist _ _)) hnd
    · simp only [lockStep, hmem, ite_false]
      exact ⟨hsub, hnd⟩

/-- C2 counterexample: op 1 acquires "k"; op 2 times out waiting and its
finally block still releases "k"; op 3 then acquires "k" while op 1 is still
inside the critical section — two in-flight operations hold the same key, so
the gate does not guarantee mutual exclusion in interleavings containing a
lock-timeout failure. -/
theorem lock_timeout_release_breaks_mutex :
    ¬ mutexOK (lockRun
      [.acquireOk 1 "k", .timeoutRelease 2 "k", .acquireOk 3 "k"]) ∧
    ((lockRun [.acquireOk 1 "k", .timeoutRelease 2 "k",
      .acquireOk 3 "k"]).holders.filter (fun x => x.2 == "k")).length = 2 := by
  constructor
  · intro h
    have h' : ((lockRun [.acquireOk 1 "k", .timeoutRelease 2 "k",
        .acquireOk 3 "k"]).holders.map Prod.snd).Nodup := h
    exact absurd h' (by decide)
  · decide

/-- C2 (amended): for every interleaving of cart-mutating operations in which
no acquire attempt fails with a lock timeout, at most one in-flight operation
holds a given identity key at any time. -/
theorem lock_mutex_without_timeouts (tr : List LockEvent)
    (h : ∀ e ∈ tr, e.isTimeout = false) : mutexOK (lockRun tr) := by
  have hgen : ∀ (l : List LockEvent), (∀ e ∈ l, e.isTimeout = false) →
      ∀ s, lockInv s → lockInv (l.foldl lockStep s) := by
    intro l
    induction l with
    | nil => intro _ s hs; exact hs
    | cons e rest ih =>
      intro hl s hs
      simp only [List.foldl_cons]
      exact ih (fun e' he' => hl e' (List.mem_cons_of_mem _ he'))
        (lockStep s e) (lockInv_step s e hs (hl e (List.mem_cons_self _ _)))
  exact (hgen tr h ⟨[], []⟩ ⟨by simp, by simp⟩).2

/-- Witness for `lock_mutex_without_timeouts`: a timeout-free interleaving in
which op 1 acquires and finishes, then op 2 acquires. -/
theorem lock_mutex_without_timeouts_witness :
    mutexOK (lockRun [.acquireOk 1 "k", .finish 1 "k", .acquireOk 2 "k"]) :=
  lock_mutex_without_timeouts
    [.acquireOk 1 "k", .finish 1 "k", .acquireOk 2 "k"] (by decide)

end Yosip
